import Mathlib

/-
  Verification of the design-parity-checker (DPC) core against its
  natural-language specification.

  The Rust sources are shallowly embedded: `f32`/`f64` values are modelled
  as exact rationals (ℚ), machine integers as ℕ with explicit reasoning
  where wrap-around could matter, and fallible paths as `Option`.
  Every definition is translated from the corresponding Rust function and
  keeps its name where Lean allows it.
-/

namespace DPC

/-- Model of Rust's `f32::clamp(lo, hi)` on exact rationals
    (the sources only call it with `lo ≤ hi`). -/
def clampQ (x lo hi : ℚ) : ℚ := min (max x lo) hi

/-! ## src/metrics/scoring.rs -/

/-- Slot payload for the pixel metric (`types.rs`, `PixelMetric`).
    The typed diff list is omitted: no verified claim reads it, only the
    `score` field feeds the combiner. The same holds for the other four
    slot payloads below. -/
structure PixelMetric where
  score : ℚ
deriving DecidableEq

/-- Slot payload for the layout metric (`types.rs`, `LayoutMetric`). -/
structure LayoutMetric where
  score : ℚ
deriving DecidableEq

/-- Slot payload for the typography metric (`types.rs`, `TypographyMetric`). -/
structure TypographyMetric where
  score : ℚ
deriving DecidableEq

/-- Slot payload for the color metric (`types.rs`, `ColorMetric`). -/
structure ColorMetric where
  score : ℚ
deriving DecidableEq

/-- Slot payload for the content metric (`types.rs`, `ContentMetric`). -/
structure ContentMetric where
  score : ℚ
deriving DecidableEq

/-- `types.rs`, `MetricScores`: five optional metric slots. -/
structure MetricScores where
  pixel : Option PixelMetric
  layout : Option LayoutMetric
  typography : Option TypographyMetric
  color : Option ColorMetric
  content : Option ContentMetric
deriving DecidableEq

/-- `scoring.rs`, `ScoreWeights`: five weights. -/
structure ScoreWeights where
  pixel : ℚ
  layout : ℚ
  typography : ℚ
  color : ℚ
  content : ℚ
deriving DecidableEq

/-- `scoring.rs`, `impl Default for ScoreWeights`. -/
def ScoreWeights.default : ScoreWeights :=
  { pixel := 35/100, layout := 25/100, typography := 15/100,
    color := 15/100, content := 10/100 }

/-- `scoring.rs` lines 30-64, `calculate_combined_score`. The running pair
    is `(weighted_sum, total_weight)`, mirroring the two mutable
    accumulators; one `match` per `if let Some(ref m) = ...` block. -/
def calculate_combined_score (scores : MetricScores) (weights : ScoreWeights) : ℚ :=
  let s0 : ℚ × ℚ := (0, 0)
  let s1 := match scores.pixel with
    | some m => (s0.1 + weights.pixel * m.score, s0.2 + weights.pixel)
    | none => s0
  let s2 := match scores.layout with
    | some m => (s1.1 + weights.layout * m.score, s1.2 + weights.layout)
    | none => s1
  let s3 := match scores.typography with
    | some m => (s2.1 + weights.typography * m.score, s2.2 + weights.typography)
    | none => s2
  let s4 := match scores.color with
    | some m => (s3.1 + weights.color * m.score, s3.2 + weights.color)
    | none => s3
  let s5 := match scores.content with
    | some m => (s4.1 + weights.content * m.score, s4.2 + weights.content)
    | none => s4
  if 0 < s5.2 then s5.1 / s5.2 else 0

/-- Spec-side definition (from the spec's words, for comparison with the
    code): the numerator `Σ wᵢ·scoreᵢ` over exactly the present slots. -/
def presentWeightedSum (scores : MetricScores) (weights : ScoreWeights) : ℚ :=
  (match scores.pixel with | some m => weights.pixel * m.score | none => 0)
  + (match scores.layout with | some m => weights.layout * m.score | none => 0)
  + (match scores.typography with | some m => weights.typography * m.score | none => 0)
  + (match scores.color with | some m => weights.color * m.score | none => 0)
  + (match scores.content with | some m => weights.content * m.score | none => 0)

/-- Spec-side definition: the denominator `Σ wᵢ` over exactly the present
    slots. -/
def presentWeightSum (scores : MetricScores) (weights : ScoreWeights) : ℚ :=
  (match scores.pixel with | some _ => weights.pixel | none => 0)
  + (match scores.layout with | some _ => weights.layout | none => 0)
  + (match scores.typography with | some _ => weights.typography | none => 0)
  + (match scores.color with | some _ => weights.color | none => 0)
  + (match scores.content with | some _ => weights.content | none => 0)

/-- The non-negativity predicate the data model imposes on `ScoreWeights`
    ("five non-negative floats"). -/
def ScoreWeights.Nonneg (w : ScoreWeights) : Prop :=
  0 ≤ w.pixel ∧ 0 ≤ w.layout ∧ 0 ≤ w.typography ∧ 0 ≤ w.color ∧ 0 ≤ w.content

/-- Each present slot carries a score in `[0,1]`. -/
def MetricScores.InUnit (s : MetricScores) : Prop :=
  (∀ m, s.pixel = some m → 0 ≤ m.score ∧ m.score ≤ 1)
  ∧ (∀ m, s.layout = some m → 0 ≤ m.score ∧ m.score ≤ 1)
  ∧ (∀ m, s.typography = some m → 0 ≤ m.score ∧ m.score ≤ 1)
  ∧ (∀ m, s.color = some m → 0 ≤ m.score ∧ m.score ≤ 1)
  ∧ (∀ m, s.content = some m → 0 ≤ m.score ∧ m.score ≤ 1)

lemma calculate_combined_score_eq (scores : MetricScores) (weights : ScoreWeights) :
    calculate_combined_score scores weights =
      if 0 < presentWeightSum scores weights then
        presentWeightedSum scores weights / presentWeightSum scores weights
      else 0 := by
  rcases scores with ⟨p, l, t, c, n⟩
  cases p <;> cases l <;> cases t <;> cases c <;> cases n <;>
    simp [calculate_combined_score, presentWeightedSum, presentWeightSum]

lemma presentWeightSum_nonneg (scores : MetricScores) (weights : ScoreWeights)
    (hw : weights.Nonneg) : 0 ≤ presentWeightSum scores weights := by
  obtain ⟨h1, h2, h3, h4, h5⟩ := hw
  rcases scores with ⟨p, l, t, c, n⟩
  cases p <;> cases l <;> cases t <;> cases c <;> cases n <;>
    simp [presentWeightSum] <;> positivity

set_option maxHeartbeats 1000000 in
lemma presentWeightedSum_nonneg (scores : MetricScores) (weights : ScoreWeights)
    (hw : weights.Nonneg) (hs : scores.InUnit) :
    0 ≤ presentWeightedSum scores weights := by
  obtain ⟨w1, w2, w3, w4, w5⟩ := hw
  obtain ⟨u1, u2, u3, u4, u5⟩ := hs
  rcases scores with ⟨p, l, t, c, n⟩
  cases p <;> cases l <;> cases t <;> cases c <;> cases n <;>
    simp_all [presentWeightedSum] <;>
    (try obtain ⟨a1, b1⟩ := u1) <;> (try obtain ⟨a2, b2⟩ := u2) <;>
    (try obtain ⟨a3, b3⟩ := u3) <;> (try obtain ⟨a4, b4⟩ := u4) <;>
    (try obtain ⟨a5, b5⟩ := u5) <;>
    nlinarith

set_option maxHeartbeats 1000000 in
lemma presentWeightedSum_le (scores : MetricScores) (weights : ScoreWeights)
    (hw : weights.Nonneg) (hs : scores.InUnit) :
    presentWeightedSum scores weights ≤ presentWeightSum scores weights := by
  obtain ⟨w1, w2, w3, w4, w5⟩ := hw
  obtain ⟨u1, u2, u3, u4, u5⟩ := hs
  rcases scores with ⟨p, l, t, c, n⟩
  cases p <;> cases l <;> cases t <;> cases c <;> cases n <;>
    simp_all [presentWeightedSum, presentWeightSum] <;>
    (try obtain ⟨a1, b1⟩ := u1) <;> (try obtain ⟨a2, b2⟩ := u2) <;>
    (try obtain ⟨a3, b3⟩ := u3) <;> (try obtain ⟨a4, b4⟩ := u4) <;>
    (try obtain ⟨a5, b5⟩ := u5) <;>
    nlinarith

/-! ## src/main.rs: exit codes and error rendering -/

/-- `error.rs`, `DpcError` (payload details that no claim reads are kept as
    plain strings; the `FigmaApi` status is an optional numeric code). -/
inductive DpcError where
  | io (msg : String)
  | network (msg : String)
  | invalidUrl (msg : String)
  | figmaApi (status : Option ℕ) (msg : String)
  | image (msg : String)
  | serialization (msg : String)
  | metric (msg : String)
  | config (msg : String)
  | unknown (msg : String)
deriving DecidableEq

/-- `main.rs` lines 1427-1433, `exit_code_for_compare`: process exit code
    for a successful compare run. -/
def exit_code_for_compare (passed : Bool) : ℕ :=
  if passed then 0 else 1

/-- `main.rs` line 245: `passed = similarity >= threshold`. -/
def compare_passed (similarity threshold : ℚ) : Bool :=
  threshold ≤ similarity

/-- Exit code of a successful compare run as a function of the computed
    similarity and the threshold (`main.rs` lines 245 and 339). -/
def compare_exit_code (similarity threshold : ℚ) : ℕ :=
  exit_code_for_compare (compare_passed similarity threshold)

/-- `main.rs` lines 1165-1195, `render_error`: after emitting the error
    envelope it unconditionally returns `ExitCode::from(2)`. Only the exit
    code is modelled; the envelope goes to stdout/file. -/
def render_error_code (_err : DpcError) : ℕ := 2

/-- C9: the compare command exits 0 when similarity ≥ threshold, 1 when the
    run succeeds but similarity is below the threshold, and error rendering
    (used for every fatal error) always yields exit code 2. -/
theorem compare_exit_codes (similarity threshold : ℚ) (err : DpcError) :
    compare_exit_code similarity threshold
        = (if threshold ≤ similarity then 0 else 1)
      ∧ render_error_code err = 2 := by
  constructor
  · by_cases h : threshold ≤ similarity <;>
      simp [compare_exit_code, compare_passed, exit_code_for_compare, h]
  · rfl

/-! ## Claim C1: the combiner is the weighted mean over present slots -/

/-- C1: `calculate_combined_score` returns `Σ wᵢ·scoreᵢ / Σ wᵢ` over exactly
    the present metric slots (the data model makes `ScoreWeights`
    non-negative), and returns 0 when all five slots are absent. When every
    present weight is 0 both sides are 0 (division by zero is 0 in ℚ). -/
theorem combined_score_is_weighted_mean (scores : MetricScores)
    (weights : ScoreWeights) (hw : weights.Nonneg) :
    calculate_combined_score scores weights
        = presentWeightedSum scores weights / presentWeightSum scores weights
      ∧ (scores.pixel = none → scores.layout = none → scores.typography = none →
          scores.color = none → scores.content = none →
          calculate_combined_score scores weights = 0) := by
  constructor
  · rw [calculate_combined_score_eq]
    by_cases h : 0 < presentWeightSum scores weights
    · simp [h]
    · have hz : presentWeightSum scores weights = 0 :=
        le_antisymm (not_lt.mp h) (presentWeightSum_nonneg scores weights hw)
      simp [h, hz]
  · intro h1 h2 h3 h4 h5
    rcases scores with ⟨p, l, t, c, n⟩
    simp_all [calculate_combined_score]

/-- Witness for C1 at a concrete input: only the pixel slot present with
    score 1/2 under the default weights; the combined score is 1/2. -/
theorem combined_score_is_weighted_mean_witness :
    (ScoreWeights.default.Nonneg)
      ∧ calculate_combined_score
          ⟨some ⟨1/2⟩, none, none, none, none⟩ ScoreWeights.default
        = presentWeightedSum ⟨some ⟨1/2⟩, none, none, none, none⟩
            ScoreWeights.default
          / presentWeightSum ⟨some ⟨1/2⟩, none, none, none, none⟩
              ScoreWeights.default :=
  ⟨by constructor <;> norm_num [ScoreWeights.default],
   (combined_score_is_weighted_mean ⟨some ⟨1/2⟩, none, none, none, none⟩
     ScoreWeights.default
     (by constructor <;> norm_num [ScoreWeights.default])).1⟩

/-! ## Claim C3: the combined score is bounded in [0,1] -/

/-- C3: for scores whose present slots lie in `[0,1]` and non-negative
    weights, the combined score lies in `[0,1]`. -/
theorem combined_score_in_unit_interval (scores : MetricScores)
    (weights : ScoreWeights) (hw : weights.Nonneg) (hs : scores.InUnit) :
    0 ≤ calculate_combined_score scores weights
      ∧ calculate_combined_score scores weights ≤ 1 := by
  rw [calculate_combined_score_eq]
  by_cases h : 0 < presentWeightSum scores weights
  · simp only [h, if_true]
    constructor
    · exact div_nonneg (presentWeightedSum_nonneg scores weights hw hs) h.le
    · rw [div_le_one h]
      exact presentWeightedSum_le scores weights hw hs
  · simp [h]

/-- Witness for C3 at a concrete input: pixel and color slots present with
    scores 1 and 1/4, default weights. -/
theorem combined_score_in_unit_interval_witness :
    (0 : ℚ) ≤ calculate_combined_score
        ⟨some ⟨1⟩, none, none, some ⟨1/4⟩, none⟩ ScoreWeights.default
      ∧ calculate_combined_score
          ⟨some ⟨1⟩, none, none, some ⟨1/4⟩, none⟩ ScoreWeights.default ≤ 1 :=
  combined_score_in_unit_interval ⟨some ⟨1⟩, none, none, some ⟨1/4⟩, none⟩
    ScoreWeights.default
    (by constructor <;> norm_num [ScoreWeights.default])
    (by refine ⟨?_, ?_, ?_, ?_, ?_⟩ <;> (intro m hm) <;> simp_all <;>
      subst hm <;> norm_num)

/-! ## Image model (the `image` crate surface used by the core)

The core manipulates RGBA rasters through the `image` crate. A raster is
modelled as its dimensions plus a total pixel function (reads outside the
bounds never happen in the modelled code paths). `resize_exact` is modelled
by its contract — output dimensions are exactly the requested ones — with
nearest-neighbour sampling standing in for the Lanczos3 kernel, whose
numeric output no claim depends on. -/

/-- One RGBA pixel; channels are byte values. -/
structure Rgba where
  r : ℕ
  g : ℕ
  b : ℕ
  a : ℕ
deriving DecidableEq

/-- A raster image. -/
structure Img where
  width : ℕ
  height : ℕ
  pix : ℕ → ℕ → Rgba

/-- Model of `DynamicImage::resize_exact(w, h, Lanczos3)`: dimensions become
    exactly `(w, h)`; pixels are resampled from the source. -/
def resizeExact (img : Img) (w h : ℕ) : Img :=
  { width := w, height := h,
    pix := fun x y => img.pix (x * img.width / w) (y * img.height / h) }

/-- Model of `DynamicImage::new_rgba8(w, h)`: a transparent-black canvas. -/
def newRgba8 (w h : ℕ) : Img :=
  { width := w, height := h, pix := fun _ _ => ⟨0, 0, 0, 0⟩ }

/-- Model of `imageops::overlay(canvas, top, ox, oy)`: canvas dimensions are
    kept; pixels covered by `top` (clipped to the canvas) take its values
    (the canvas is fully transparent at every call site, so alpha blending
    degenerates to replacement). -/
def overlay (canvas top : Img) (ox oy : ℕ) : Img :=
  { canvas with
    pix := fun x y =>
      if ox ≤ x ∧ x < ox + top.width ∧ oy ≤ y ∧ y < oy + top.height
          ∧ x < canvas.width ∧ y < canvas.height
      then top.pix (x - ox) (y - oy)
      else canvas.pix x y }

/-- `image_loader.rs` lines 99-122, `resize_with_letterbox`. The `u32`
    subtraction `target_width - new_w` is modelled as ℕ subtraction; the
    geometry theorem below proves `new_w ≤ target_width` (and likewise for
    the height), so no wrap-around is dropped by this choice. `f64::round`
    is round-half-away-from-zero, which on the non-negative values that
    occur here agrees with Mathlib's `round`. -/
def resize_with_letterbox (img : Img) (target_width target_height : ℕ) : Img :=
  let scale_w : ℚ := (target_width : ℚ) / (img.width : ℚ)
  let scale_h : ℚ := (target_height : ℚ) / (img.height : ℚ)
  let scale := min scale_w scale_h
  let new_w : ℕ := (round ((img.width : ℚ) * scale)).toNat
  let new_h : ℕ := (round ((img.height : ℚ) * scale)).toNat
  let resized := resizeExact img new_w new_h
  let canvas := newRgba8 target_width target_height
  let offset_x := (target_width - new_w) / 2
  let offset_y := (target_height - new_h) / 2
  overlay canvas resized offset_x offset_y

lemma round_toNat_le {w t : ℕ} (s : ℚ) (hw : 0 < w) (hs : s ≤ (t : ℚ) / (w : ℚ)) :
    (round ((w : ℚ) * s)).toNat ≤ t := by
  have hwq : (0 : ℚ) < (w : ℚ) := by exact_mod_cast hw
  have hle : (w : ℚ) * s ≤ (t : ℚ) := by
    rw [le_div_iff₀ hwq] at hs
    linarith [hs]
  have : round ((w : ℚ) * s) ≤ (t : ℤ) := by
    rw [round_eq]
    have hfl : ⌊(w : ℚ) * s + 1 / 2⌋ ≤ ⌊(t : ℚ) + 1 / 2⌋ :=
      Int.floor_le_floor (by linarith)
    have ht : ⌊(t : ℚ) + 1 / 2⌋ = (t : ℤ) := by
      rw [show ((t : ℚ) + 1 / 2) = (1 / 2 + (t : ℤ)) by push_cast; ring,
        Int.floor_add_int]
      norm_num
    omega
  calc (round ((w : ℚ) * s)).toNat ≤ (t : ℤ).toNat := Int.toNat_le_toNat this
    _ = t := Int.toNat_natCast t

lemma round_toNat_close {w : ℕ} {s : ℚ} (hs : 0 ≤ s) :
    |((round ((w : ℚ) * s)).toNat : ℚ) - (w : ℚ) * s| ≤ 1 / 2 := by
  have hx : (0 : ℚ) ≤ (w : ℚ) * s := by positivity
  have hr : 0 ≤ round ((w : ℚ) * s) := by
    rw [round_eq]
    rw [Int.le_floor]
    push_cast
    linarith
  have hcast : (((round ((w : ℚ) * s)).toNat : ℤ) : ℚ)
      = ((round ((w : ℚ) * s) : ℤ) : ℚ) := by
    rw [Int.toNat_of_nonneg hr]
  have := abs_sub_round ((w : ℚ) * s)
  rw [abs_sub_comm] at this
  calc |((round ((w : ℚ) * s)).toNat : ℚ) - (w : ℚ) * s|
      = |((round ((w : ℚ) * s) : ℤ) : ℚ) - (w : ℚ) * s| := by
        rw [show (((round ((w : ℚ) * s)).toNat : ℕ) : ℚ)
          = (((round ((w : ℚ) * s)).toNat : ℤ) : ℚ) by push_cast; ring, hcast]
    _ ≤ 1 / 2 := this

/-- C4: for a source with positive dimensions, `resize_with_letterbox`
    produces exactly the `(W, H)` canvas, with the scaled source of size
    `(round(w·s), round(h·s))` for `s = min(W/w, H/h)` composited at the
    centred floor-division offsets; the scaled dimensions fit in the target
    (so the `u32` offset subtraction cannot wrap) and each is within 1/2 of
    the exact aspect-preserving value `w·s` resp. `h·s`. -/
theorem resize_with_letterbox_geometry (img : Img) (tw th : ℕ)
    (hw : 0 < img.width) (hh : 0 < img.height) (htw : 0 < tw) (hth : 0 < th) :
    let s : ℚ := min ((tw : ℚ) / (img.width : ℚ)) ((th : ℚ) / (img.height : ℚ))
    let nw : ℕ := (round ((img.width : ℚ) * s)).toNat
    let nh : ℕ := (round ((img.height : ℚ) * s)).toNat
    (resize_with_letterbox img tw th).width = tw
    ∧ (resize_with_letterbox img tw th).height = th
    ∧ nw ≤ tw ∧ nh ≤ th
    ∧ resize_with_letterbox img tw th
        = overlay (newRgba8 tw th) (resizeExact img nw nh)
            ((tw - nw) / 2) ((th - nh) / 2)
    ∧ |(nw : ℚ) - (img.width : ℚ) * s| ≤ 1 / 2
    ∧ |(nh : ℚ) - (img.height : ℚ) * s| ≤ 1 / 2 := by
  intro s nw nh
  have hs0 : 0 ≤ s := by
    apply le_min <;> positivity
  refine ⟨rfl, rfl, ?_, ?_, rfl, ?_, ?_⟩
  · exact round_toNat_le s hw (min_le_left _ _)
  · exact round_toNat_le s hh (min_le_right _ _)
  · exact round_toNat_close hs0
  · exact round_toNat_close hs0

/-- Witness for C4: a 200×100 source letterboxed into 100×100; the scaled
    source is 100×50 at offsets (0, 25). -/
theorem resize_with_letterbox_geometry_witness :
    ((0 : ℕ) < 200 ∧ (0 : ℕ) < 100)
    ∧ (resize_with_letterbox (Img.mk 200 100 (fun _ _ => ⟨0, 0, 0, 0⟩)) 100 100).width
        = 100
    ∧ (resize_with_letterbox (Img.mk 200 100 (fun _ _ => ⟨0, 0, 0, 0⟩)) 100 100).height
        = 100 := by
  refine ⟨⟨by norm_num, by norm_num⟩, ?_⟩
  have h := resize_with_letterbox_geometry
    (Img.mk 200 100 (fun _ _ => ⟨0, 0, 0, 0⟩)) 100 100
    (by norm_num) (by norm_num) (by norm_num) (by norm_num)
  exact ⟨h.1, h.2.1⟩

/-! ## src/main.rs: diff heatmap -/

/-- The per-pixel body of `generate_diff_heatmap` (`main.rs` lines 817-837):
    absolute RGB delta, severity ratio, alpha, and the banded colour. The
    `as u8` casts truncate toward zero; every cast value here is
    non-negative, so truncation is `Int.floor ∘ Int.toNat`. -/
def heatPixel (p_ref p_impl : Rgba) : Rgba :=
  let diff : ℤ := |(p_ref.r : ℤ) - (p_impl.r : ℤ)|
    + |(p_ref.g : ℤ) - (p_impl.g : ℤ)|
    + |(p_ref.b : ℤ) - (p_impl.b : ℤ)|
  let dratio : ℚ := clampQ ((diff : ℚ) / 765) 0 1
  let alpha : ℕ := (⌊clampQ (dratio * 200) 0 200⌋).toNat
  if dratio < 33/100 then
    let g : ℕ := (⌊clampQ (100 + dratio / (33/100) * 100) 0 200⌋).toNat
    ⟨0, g, 0, alpha⟩
  else if dratio < 66/100 then
    let g : ℕ := 180
    let r : ℕ := (⌊clampQ (150 + (dratio - 33/100) / (33/100) * 80) 150 230⌋).toNat
    ⟨r, g, 0, alpha⟩
  else
    let r : ℕ := (⌊clampQ (200 + (dratio - 66/100) / (34/100) * 55) 200 255⌋).toNat
    ⟨r, 0, 0, alpha⟩

/-- `main.rs` lines 797-845, `generate_diff_heatmap` (the raster transform;
    file decode/encode around it is I/O). The output raster starts as
    `RgbaImage::new(ref_w, ref_h)` (all-zero) and the loop writes every
    in-bounds pixel. -/
def generate_diff_heatmap (ref_img impl_img : Img) : Img :=
  let impl2 :=
    if (impl_img.width, impl_img.height) ≠ (ref_img.width, ref_img.height) then
      resizeExact impl_img ref_img.width ref_img.height
    else impl_img
  { width := ref_img.width, height := ref_img.height,
    pix := fun x y =>
      if x < ref_img.width ∧ y < ref_img.height then
        heatPixel (ref_img.pix x y) (impl2.pix x y)
      else ⟨0, 0, 0, 0⟩ }

lemma heatPixel_self_alpha (p : Rgba) : (heatPixel p p).a = 0 := by
  simp only [heatPixel, sub_self, abs_zero, add_zero]
  norm_num [clampQ]

/-- C8: diffing an image against itself yields an all-transparent heatmap:
    every output pixel has alpha 0. -/
theorem diff_heatmap_self_transparent (img : Img) (x y : ℕ) :
    ((generate_diff_heatmap img img).pix x y).a = 0 := by
  simp only [generate_diff_heatmap, ne_eq, not_true_eq_false, if_false]
  by_cases h : x < img.width ∧ y < img.height
  · simp [h, heatPixel_self_alpha]
  · simp [h]

/-! ## src/main.rs: ignore-region masking -/

/-- `main.rs` lines 693-701, `IgnoreRegion`. -/
structure IgnoreRegion where
  x : ℚ
  y : ℚ
  width : ℚ
  height : ℚ
deriving DecidableEq

/-- The per-region bound computation of `apply_ignore_regions` (`main.rs`
    lines 749-778): `none` when the region is skipped
    (`width <= 0.0 || height <= 0.0`), otherwise the clipped integer bounds
    `(x_start, y_start, x_end, y_end)`. `as u32` on these non-negative
    values is the identity on the already-floored/ceiled value, and
    `f32::floor`/`f32::ceil` are modelled by `Int.floor`/`Int.ceil`. -/
def regionBounds (img_w img_h : ℕ) (region : IgnoreRegion) :
    Option (ℕ × ℕ × ℕ × ℕ) :=
  if region.width ≤ 0 ∨ region.height ≤ 0 then none
  else
    let use_normalized := 0 ≤ region.x ∧ 0 ≤ region.y
      ∧ region.x ≤ 1 ∧ region.y ≤ 1 ∧ region.width ≤ 1 ∧ region.height ≤ 1
    let rxywh : ℚ × ℚ × ℚ × ℚ :=
      if use_normalized then
        (region.x * img_w, region.y * img_h,
         region.width * img_w, region.height * img_h)
      else (region.x, region.y, region.width, region.height)
    let rx := rxywh.1
    let ry := rxywh.2.1
    let rw := rxywh.2.2.1
    let rh := rxywh.2.2.2
    let x0 : ℕ := (⌊max rx 0⌋).toNat
    let y0 : ℕ := (⌊max ry 0⌋).toNat
    let x1 : ℕ := (max (⌈rx + rw⌉) 0).toNat
    let y1 : ℕ := (max (⌈ry + rh⌉) 0).toNat
    some (min x0 img_w, min y0 img_h, min x1 img_w, min y1 img_h)

/-- `main.rs` lines 780-784: the masking loop overwrites the bounded block
    with transparent black. -/
def applyIgnoreRegion (img : Img) (region : IgnoreRegion) : Img :=
  match regionBounds img.width img.height region with
  | none => img
  | some (xs, ys, xe, ye) =>
    { img with
      pix := fun x y =>
        if xs ≤ x ∧ x < xe ∧ ys ≤ y ∧ y < ye then ⟨0, 0, 0, 0⟩
        else img.pix x y }

/-- `main.rs` lines 734-795, `apply_ignore_regions` (raster part: the loop
    over `regions`; decode/save and the `screenshot_path` swap are I/O). -/
def apply_ignore_regions (img : Img) (regions : List IgnoreRegion) : Img :=
  regions.foldl applyIgnoreRegion img

/-- Spec-side definition, from the claim's words: a region is normalized
    exactly when all four values are ≤ 1.0 (no sign condition). -/
def regionBoundsClaim (img_w img_h : ℕ) (region : IgnoreRegion) :
    Option (ℕ × ℕ × ℕ × ℕ) :=
  if region.width ≤ 0 ∨ region.height ≤ 0 then none
  else
    let use_normalized := region.x ≤ 1 ∧ region.y ≤ 1
      ∧ region.width ≤ 1 ∧ region.height ≤ 1
    let rxywh : ℚ × ℚ × ℚ × ℚ :=
      if use_normalized then
        (region.x * img_w, region.y * img_h,
         region.width * img_w, region.height * img_h)
      else (region.x, region.y, region.width, region.height)
    let rx := rxywh.1
    let ry := rxywh.2.1
    let rw := rxywh.2.2.1
    let rh := rxywh.2.2.2
    let x0 : ℕ := (⌊max rx 0⌋).toNat
    let y0 : ℕ := (⌊max ry 0⌋).toNat
    let x1 : ℕ := (max (⌈rx + rw⌉) 0).toNat
    let y1 : ℕ := (max (⌈ry + rh⌉) 0).toNat
    some (min x0 img_w, min y0 img_h, min x1 img_w, min y1 img_h)

/-- Counterexample for C6: the region `{x: -0.5, y: 0, width: 0.8,
    height: 0.8}` has all four values ≤ 1.0, yet on a 100×100 image the code
    treats it as absolute pixels (mask block `[0,1)×[0,1)`), not as
    normalized coordinates (which would give `[0,30)×[0,80)`). -/
theorem ignore_region_normalized_rule_counterexample :
    regionBounds 100 100 ⟨-1/2, 0, 4/5, 4/5⟩ = some (0, 0, 1, 1)
    ∧ regionBoundsClaim 100 100 ⟨-1/2, 0, 4/5, 4/5⟩ = some (0, 0, 30, 80)
    ∧ regionBounds 100 100 ⟨-1/2, 0, 4/5, 4/5⟩
        ≠ regionBoundsClaim 100 100 ⟨-1/2, 0, 4/5, 4/5⟩ := by
  have h1 : regionBounds 100 100 ⟨-1/2, 0, 4/5, 4/5⟩ = some (0, 0, 1, 1) := by
    rw [regionBounds]
    norm_num
    rw [show ⌈(3:ℚ)/10⌉ = 1 by rw [Int.ceil_eq_iff]; norm_num,
      show ⌈(4:ℚ)/5⌉ = 1 by rw [Int.ceil_eq_iff]; norm_num]
    decide
  have h2 : regionBoundsClaim 100 100 ⟨-1/2, 0, 4/5, 4/5⟩
      = some (0, 0, 30, 80) := by
    rw [regionBoundsClaim]
    norm_num
    decide
  exact ⟨h1, h2, by rw [h1, h2]; decide⟩

/-- C6 (amended): a region with positive width and height is interpreted as
    normalized coordinates exactly when `0 ≤ x`, `0 ≤ y` and all four values
    are ≤ 1.0; otherwise (in particular whenever any value is > 1.0) it is
    interpreted as absolute pixels; regions with zero or negative width or
    height are skipped. Both interpretations floor/ceil-expand and clip. -/
theorem ignore_region_mode_rule (img_w img_h : ℕ) (region : IgnoreRegion) :
    (region.width ≤ 0 ∨ region.height ≤ 0 →
      regionBounds img_w img_h region = none)
    ∧ (0 < region.width → 0 < region.height →
        (0 ≤ region.x ∧ 0 ≤ region.y ∧ region.x ≤ 1 ∧ region.y ≤ 1
            ∧ region.width ≤ 1 ∧ region.height ≤ 1 →
          regionBounds img_w img_h region =
            some (min ((⌊max (region.x * img_w) 0⌋).toNat) img_w,
              min ((⌊max (region.y * img_h) 0⌋).toNat) img_h,
              min ((max (⌈region.x * img_w + region.width * img_w⌉) 0).toNat) img_w,
              min ((max (⌈region.y * img_h + region.height * img_h⌉) 0).toNat) img_h))
        ∧ (¬(0 ≤ region.x ∧ 0 ≤ region.y ∧ region.x ≤ 1 ∧ region.y ≤ 1
              ∧ region.width ≤ 1 ∧ region.height ≤ 1) →
          regionBounds img_w img_h region =
            some (min ((⌊max region.x 0⌋).toNat) img_w,
              min ((⌊max region.y 0⌋).toNat) img_h,
              min ((max (⌈region.x + region.width⌉) 0).toNat) img_w,
              min ((max (⌈region.y + region.height⌉) 0).toNat) img_h))) := by
  refine ⟨fun hskip => by simp [regionBounds, hskip], fun hw hh => ⟨?_, ?_⟩⟩
  · intro hnorm
    rw [regionBounds, if_neg (by push_neg; constructor <;> linarith)]
    simp only [if_pos hnorm]
  · intro hnorm
    rw [regionBounds, if_neg (by push_neg; constructor <;> linarith)]
    simp only [if_neg hnorm]

/-- Witness for the amended C6 at concrete inputs: a normalized region and
    an absolute-pixel region on a 100×50 image. -/
theorem ignore_region_mode_rule_witness :
    ((0:ℚ) < 1/2 ∧ (0:ℚ) < 1/4
      ∧ regionBounds 100 50 ⟨1/10, 1/5, 1/2, 1/4⟩ = some (10, 10, 60, 23))
    ∧ ((0:ℚ) < 30 ∧ (0:ℚ) < 7
      ∧ regionBounds 100 50 ⟨20, 40, 30, 7⟩ = some (20, 40, 50, 47)) := by
  constructor
  · refine ⟨by norm_num, by norm_num, ?_⟩
    have h := ((ignore_region_mode_rule 100 50 ⟨1/10, 1/5, 1/2, 1/4⟩).2
      (by norm_num) (by norm_num)).1 (by norm_num)
    rw [h]
    norm_num
    rw [show ⌈(45:ℚ)/2⌉ = 23 by rw [Int.ceil_eq_iff]; norm_num]
    decide
  · refine ⟨by norm_num, by norm_num, ?_⟩
    have h := ((ignore_region_mode_rule 100 50 ⟨20, 40, 30, 7⟩).2
      (by norm_num) (by norm_num)).2 (by norm_num)
    rw [h]
    norm_num
    decide

/-- C10: whatever the region (negative, fractional or oversized values
    included), the computed block is clipped inside the image:
    `x_start ≤ x_end ≤ width` and `y_start ≤ y_end ≤ height`, so every
    `put_pixel` in the masking loop is in bounds. -/
theorem ignore_region_bounds_safe (img_w img_h : ℕ) (region : IgnoreRegion)
    (xs ys xe ye : ℕ)
    (h : regionBounds img_w img_h region = some (xs, ys, xe, ye)) :
    xs ≤ xe ∧ xe ≤ img_w ∧ ys ≤ ye ∧ ye ≤ img_h
    ∧ ∀ x y, x < xe → y < ye → x < img_w ∧ y < img_h := by
  rw [regionBounds] at h
  by_cases hskip : region.width ≤ 0 ∨ region.height ≤ 0
  · simp [hskip] at h
  · rw [if_neg hskip] at h
    push_neg at hskip
    obtain ⟨hw, hh⟩ := hskip
    simp only [Option.some.injEq, Prod.mk.injEq] at h
    obtain ⟨hxs, hys, hxe, hye⟩ := h
    -- the effective rectangle (rx, ry, rw, rh) in either mode has rw, rh ≥ 0
    set nrm := (0 ≤ region.x ∧ 0 ≤ region.y ∧ region.x ≤ 1 ∧ region.y ≤ 1
      ∧ region.width ≤ 1 ∧ region.height ≤ 1) with hnrm
    have key : ∀ (rx rw' : ℚ), 0 ≤ rw' →
        (⌊max rx 0⌋).toNat ≤ (max (⌈rx + rw'⌉) 0).toNat := by
      intro rx rw' hrw
      apply Int.toNat_le_toNat
      calc ⌊max rx 0⌋ ≤ ⌈max rx 0⌉ := Int.floor_le_ceil _
        _ ≤ ⌈max (rx + rw') 0⌉ :=
          Int.ceil_le_ceil (max_le_max (by linarith) le_rfl)
        _ ≤ max (⌈rx + rw'⌉) 0 := by
          rcases le_total (rx + rw') 0 with hc | hc
          · rw [max_eq_right hc]
            simp
          · rw [max_eq_left hc]
            exact le_max_left _ _
    have hx01 : xs ≤ xe := by
      by_cases hn : nrm
      · subst hxs hxe
        simp only [if_pos hn]
        have hiw : (0:ℚ) ≤ (img_w : ℚ) := by positivity
        exact min_le_min (key _ _ (by nlinarith [hw.le])) le_rfl
      · subst hxs hxe
        simp only [if_neg hn]
        exact min_le_min (key _ _ hw.le) le_rfl
    have hy01 : ys ≤ ye := by
      by_cases hn : nrm
      · subst hys hye
        simp only [if_pos hn]
        have hih : (0:ℚ) ≤ (img_h : ℚ) := by positivity
        exact min_le_min (key _ _ (by nlinarith [hh.le])) le_rfl
      · subst hys hye
        simp only [if_neg hn]
        exact min_le_min (key _ _ hh.le) le_rfl
    have hxw : xe ≤ img_w := by
      subst hxe
      by_cases hn : nrm <;> simp [hn]
    have hyh : ye ≤ img_h := by
      subst hye
      by_cases hn : nrm <;> simp [hn]
    exact ⟨hx01, hxw, hy01, hyh,
      fun x y hx hy => ⟨lt_of_lt_of_le hx hxw, lt_of_lt_of_le hy hyh⟩⟩

/-- Witness for C10: an oversized region with a negative origin on an 8×8
    image clips to the full image. -/
theorem ignore_region_bounds_safe_witness :
    regionBounds 8 8 ⟨-3, -3, 100, 100⟩ = some (0, 0, 8, 8)
    ∧ ((0:ℕ) ≤ 8 ∧ (8:ℕ) ≤ 8) := by
  have hb : regionBounds 8 8 ⟨-3, -3, 100, 100⟩ = some (0, 0, 8, 8) := by
    rw [regionBounds]
    norm_num
  have h := ignore_region_bounds_safe 8 8 ⟨-3, -3, 100, 100⟩ 0 0 8 8 hb
  exact ⟨hb, h.1.trans h.2.1, h.2.1⟩

/-! ## src/main.rs: mock-render override and resource dispatch -/

/-- Model of `str::to_ascii_uppercase` (maps a-z to A-Z, character-wise). -/
def asciiUppercase (s : String) : String :=
  String.mk (s.data.map Char.toUpper)

/-- Model of `str::trim`: drop leading and trailing whitespace. -/
def strTrim (s : String) : String :=
  String.mk
    (((s.data.dropWhile Char.isWhitespace).reverse.dropWhile
      Char.isWhitespace).reverse)

/-- An environment snapshot: `std::env::var` per key (`none` models `Err`). -/
def EnvSnapshot : Type := String → Option String

/-- `main.rs` lines 675-691, `mock_render_image_path`. The process
    environment and `Path::exists` are passed in as snapshots;
    `Path::new(&dir).join(...)` is modelled as slash concatenation. -/
def mock_render_image_path (env : EnvSnapshot) (fileExists : String → Bool)
    (pfx : String) : Option String :=
  let env_key := "DPC_MOCK_RENDER_" ++ asciiUppercase pfx
  let fromDir : Option String :=
    match env "DPC_MOCK_RENDERERS_DIR" with
    | some dir =>
      let candidate := dir ++ "/" ++ pfx ++ ".png"
      if fileExists candidate then some candidate else none
    | none => none
  match env env_key with
  | some path => if strTrim path ≠ "" then some path else fromDir
  | none => fromDir

/-- `types.rs`, `ResourceKind`. -/
inductive ResourceKind where
  | url
  | image
  | figma
deriving DecidableEq

/-- The Figma part of a parsed resource (file key plus optional node id). -/
structure FigmaInfo where
  fileKey : String
  nodeId : Option String
deriving DecidableEq

/-- A parsed resource descriptor (`parse_resource` output). -/
structure ParsedResource where
  kind : ResourceKind
  value : String
  figmaInfo : Option FigmaInfo
deriving DecidableEq

/-- A viewport (`viewport.rs`): width and height in pixels. -/
structure Viewport where
  width : ℕ
  height : ℕ
deriving DecidableEq

/-- The action `resource_to_normalized_view` takes after its dispatch logic:
    which backend is invoked, or which image is letterboxed to the viewport,
    or which config error is raised. The rendering itself is I/O. -/
inductive RenderAction where
  | imageBranch (sourcePath : String) (targetW targetH : ℕ)
  | urlBackend (url : String) (targetW targetH : ℕ)
  | figmaBackend (fileKey nodeId : String)
  | configError (msg : String)
deriving DecidableEq

/-- `main.rs` lines 586-673, `resource_to_normalized_view` (dispatch
    structure): for Url/Figma resources the mock-render override is consulted
    first and, when it yields a path, that path is routed through the Image
    branch with letterbox options for the viewport; otherwise dispatch is by
    kind. `figmaAuthAvailable` models `FigmaAuth::from_env().is_some()`. -/
def resource_dispatch (env : EnvSnapshot) (fileExists : String → Bool)
    (res : ParsedResource) (vp : Viewport) (pfx : String)
    (figmaAuthAvailable : Bool) : RenderAction :=
  let byKind : RenderAction :=
    match res.kind with
    | .image => .imageBranch res.value vp.width vp.height
    | .url => .urlBackend res.value vp.width vp.height
    | .figma =>
      match res.figmaInfo with
      | none => .configError "Missing Figma file key"
      | some fi =>
        match fi.nodeId with
        | none => .configError "Figma node-id is required"
        | some nid =>
          if figmaAuthAvailable then .figmaBackend fi.fileKey nid
          else .configError
            "Figma token missing; set FIGMA_TOKEN or FIGMA_OAUTH_TOKEN"
  if res.kind = .url ∨ res.kind = .figma then
    match mock_render_image_path env fileExists pfx with
    | some mock_path => .imageBranch mock_path vp.width vp.height
    | none => byKind
  else byKind

/-- Spec-side definition, from the claim's words: consult
    `MOCK_RENDER_<PREFIX_UPPER>` (no `DPC_` prefix); if set and non-empty use
    its value; otherwise use `MOCK_RENDERERS_DIR/<prefix>.png` if it
    exists. -/
def claimMockPath (env : EnvSnapshot) (fileExists : String → Bool)
    (pfx : String) : Option String :=
  let env_key := "MOCK_RENDER_" ++ asciiUppercase pfx
  let fromDir : Option String :=
    match env "MOCK_RENDERERS_DIR" with
    | some dir =>
      let candidate := dir ++ "/" ++ pfx ++ ".png"
      if fileExists candidate then some candidate else none
    | none => none
  match env env_key with
  | some path => if path ≠ "" then some path else fromDir
  | none => fromDir

/-- The environment snapshot of the C2 counterexample: only
    `MOCK_RENDER_REF` (the claim's variable name) is set. -/
def cexMockEnv : EnvSnapshot :=
  fun k => if k = "MOCK_RENDER_REF" then some "mock.png" else none

/-- The Url resource of the C2 counterexample. -/
def cexUrlResource : ParsedResource := ⟨.url, "https://example.com", none⟩

/-- Counterexample for C2: with `MOCK_RENDER_REF=mock.png` set (and nothing
    else), the claim prescribes the Image branch with `mock.png`, but the
    code consults `DPC_MOCK_RENDER_REF`, finds nothing, and dispatches a Url
    resource to the render backend. -/
theorem mock_render_env_name_counterexample :
    claimMockPath cexMockEnv (fun _ => false) "ref" = some "mock.png"
    ∧ resource_dispatch cexMockEnv (fun _ => false) cexUrlResource
        ⟨1280, 720⟩ "ref" true
        = .urlBackend "https://example.com" 1280 720
    ∧ resource_dispatch cexMockEnv (fun _ => false) cexUrlResource
        ⟨1280, 720⟩ "ref" true
        ≠ .imageBranch "mock.png" 1280 720 := by
  refine ⟨?_, ?_, ?_⟩ <;> decide

/-- C2 (amended): for Url and Figma resources, before dispatching to the
    backend the pipeline consults `DPC_MOCK_RENDER_<PREFIX_UPPER>`; if it is
    set and non-blank (non-empty after trimming whitespace) its value is
    routed through the Image branch, letterboxed to the viewport. Otherwise
    `DPC_MOCK_RENDERERS_DIR/<prefix>.png` is used the same way when the file
    exists. -/
theorem mock_render_override_policy (env : EnvSnapshot)
    (fileExists : String → Bool) (res : ParsedResource) (vp : Viewport)
    (pfx : String) (auth : Bool)
    (hkind : res.kind = .url ∨ res.kind = .figma) :
    (∀ v, env ("DPC_MOCK_RENDER_" ++ asciiUppercase pfx) = some v →
      strTrim v ≠ "" →
      resource_dispatch env fileExists res vp pfx auth
        = .imageBranch v vp.width vp.height)
    ∧ ((env ("DPC_MOCK_RENDER_" ++ asciiUppercase pfx) = none
          ∨ ∃ v, env ("DPC_MOCK_RENDER_" ++ asciiUppercase pfx) = some v
              ∧ strTrim v = "") →
        ∀ dir, env "DPC_MOCK_RENDERERS_DIR" = some dir →
        fileExists (dir ++ "/" ++ pfx ++ ".png") = true →
        resource_dispatch env fileExists res vp pfx auth
          = .imageBranch (dir ++ "/" ++ pfx ++ ".png") vp.width vp.height) := by
  constructor
  · intro v hv hne
    rw [resource_dispatch]
    simp only [if_pos hkind]
    rw [mock_render_image_path]
    simp only [hv, if_pos hne]
  · intro hblank dir hdir hfe
    rw [resource_dispatch]
    simp only [if_pos hkind]
    rw [mock_render_image_path]
    simp only [hdir, hfe, if_true]
    rcases hblank with hnone | ⟨v, hv, hblank⟩
    · simp only [hnone]
    · simp only [hv, hblank, ne_eq, not_true_eq_false, if_false]

/-- Witness for the amended C2: both override modes at concrete inputs. -/
theorem mock_render_override_policy_witness :
    (resource_dispatch
        (fun k => if k = "DPC_MOCK_RENDER_REF" then some "mock.png" else none)
        (fun _ => false) ⟨.url, "https://example.com", none⟩ ⟨1280, 720⟩
        "ref" true
      = .imageBranch "mock.png" 1280 720)
    ∧ (resource_dispatch
        (fun k => if k = "DPC_MOCK_RENDERERS_DIR" then some "mocks" else none)
        (fun p => p = "mocks/impl.png") ⟨.figma, "FILE123", some ⟨"FILE123", some "1-2"⟩⟩
        ⟨800, 600⟩ "impl" true
      = .imageBranch "mocks/impl.png" 800 600) := by
  constructor
  · exact (mock_render_override_policy
      (fun k => if k = "DPC_MOCK_RENDER_REF" then some "mock.png" else none)
      (fun _ => false) ⟨.url, "https://example.com", none⟩ ⟨1280, 720⟩
      "ref" true (Or.inl rfl)).1 "mock.png" (by decide) (by decide)
  · exact (mock_render_override_policy
      (fun k => if k = "DPC_MOCK_RENDERERS_DIR" then some "mocks" else none)
      (fun p => p = "mocks/impl.png") ⟨.figma, "FILE123", some ⟨"FILE123", some "1-2"⟩⟩
      ⟨800, 600⟩ "impl" true (Or.inr rfl)).2 (Or.inl (by decide))
      "mocks" (by decide) (by decide)

/-! ## View data model (src/types.rs) and quality heuristics
    (src/commands/quality.rs) -/

/-- Modelled from the spec: `FindingSeverity` (declared in the crate's
    `output` module, which is not among the provided sources; quality.rs
    uses the `Info` and `Warning` variants, the error envelope a third). -/
inductive FindingSeverity where
  | info
  | warning
  | error
deriving DecidableEq

/-- Modelled from the spec: `QualityFindingType` (declared in the crate's
    `output` module, not among the provided sources; these four variants are
    the ones quality.rs constructs and §4.F names). -/
inductive QualityFindingType where
  | missingHierarchy
  | alignmentInconsistent
  | spacingInconsistent
  | lowContrast
deriving DecidableEq

/-- `output` module, `QualityFinding`. The human-readable `message` string
    is presentation-only (no claim reads it) and is omitted. -/
structure QualityFinding where
  severity : FindingSeverity
  finding_type : QualityFindingType
deriving DecidableEq

/-- `types.rs`, `BoundingBox` (f32 fields as ℚ). -/
structure BoundingBox where
  x : ℚ
  y : ℚ
  width : ℚ
  height : ℚ
deriving DecidableEq

/-- `types.rs`, `DomNode`. The quality heuristics only read `tag`, `text`
    and `bounding_box`; `id` is kept for identification. The unread
    `children`/`parent`/`attributes`/`computed_style` fields are omitted. -/
structure DomNode where
  id : String
  tag : String
  text : Option String
  bounding_box : BoundingBox
deriving DecidableEq

/-- `types.rs`, `DomSnapshot`. -/
structure DomSnapshot where
  url : Option String
  title : Option String
  nodes : List DomNode
deriving DecidableEq

/-- `types.rs`, `FigmaNode` (fields the heuristics read; `name`,
    `typography`, `fills`, `children` are unread and omitted). -/
structure FigmaNode where
  id : String
  node_type : String
  text : Option String
  bounding_box : BoundingBox
deriving DecidableEq

/-- `types.rs`, `FigmaSnapshot`. -/
structure FigmaSnapshot where
  file_key : String
  node_id : String
  nodes : List FigmaNode
deriving DecidableEq

/-- `types.rs`, `OcrBlock` (only emptiness of the list is read). -/
structure OcrBlock where
  text : String
deriving DecidableEq

/-- `types.rs`, `NormalizedView`. -/
structure NormalizedView where
  kind : ResourceKind
  screenshot_path : String
  width : ℕ
  height : ℕ
  dom : Option DomSnapshot
  figma_tree : Option FigmaSnapshot
  ocr_blocks : Option (List OcrBlock)
deriving DecidableEq

/-- Model of `str::to_ascii_lowercase`. -/
def asciiLowercase (s : String) : String :=
  String.mk (s.data.map Char.toLower)

/-- `quality.rs` lines 308-313, `node_has_text`. -/
def node_has_text (node : DomNode) : Bool :=
  match node.text with
  | some t => strTrim t ≠ ""
  | none => false

/-- `quality.rs` lines 315-317, `is_heading`. -/
def is_heading (node : DomNode) : Bool :=
  let t := asciiLowercase node.tag
  t = "h1" ∨ t = "h2" ∨ t = "h3"

/-- `quality.rs` lines 319-324, `figma_has_text`. -/
def figma_has_text (node : FigmaNode) : Bool :=
  match node.text with
  | some t => strTrim t ≠ ""
  | none => false

/-- The `(y, x)`-lexicographic comparator of `quality.rs` lines 340-344
    (`sort_by` with `partial_cmp ... then_with`; all coordinates are finite
    here, so `partial_cmp` is the total order on ℚ). -/
def boxYXLe (a b : BoundingBox) : Prop :=
  a.y < b.y ∨ (a.y = b.y ∧ a.x ≤ b.x)

instance : DecidableRel boxYXLe := fun a b => by
  unfold boxYXLe
  infer_instance

/-- `quality.rs` lines 326-357, `collect_vertical_gaps`. Rust's in-place
    stable `sort_by` is modelled by (stable) insertion sort. -/
def collect_vertical_gaps (view : NormalizedView) : List ℚ :=
  let boxes : List BoundingBox :=
    match view.dom with
    | some dom => dom.nodes.map (fun n => n.bounding_box)
    | none =>
      match view.figma_tree with
      | some figma => figma.nodes.map (fun n => n.bounding_box)
      | none => []
  let retained := boxes.filter (fun b => 0 < b.height)
  if retained.length < 2 then []
  else
    let sorted := List.insertionSort boxYXLe retained
    (sorted.zip sorted.tail).filterMap fun pair =>
      let bottom := pair.1.y + pair.1.height
      let gap := pair.2.y - bottom
      if 1/1000 < gap then some gap else none

/-- `quality.rs` line 366: gaps are bucketed by `(gap * 100.0).round()`
    (`f32::round` is half-away-from-zero; the kept gaps are positive, where
    that agrees with Mathlib's `round`). -/
def bucketOf (gap : ℚ) : ℤ := round (gap * 100)

/-- `quality.rs` lines 359-408, `evaluate_spacing`. The bucket map's value
    multiset is recovered as `count` over distinct keys. The `min_gap` and
    `max_gap` computations only feed the omitted message string. -/
def evaluate_spacing (gaps : List ℚ) : Option (QualityFinding × ℚ) :=
  if gaps.length < 5 then none
  else
    let buckets := gaps.map bucketOf
    let distinct := buckets.dedup.length
    if distinct < 5 then none
    else
      let total : ℚ := gaps.length
      let max_bucket : ℕ := (buckets.dedup.map (fun b => buckets.count b)).foldr max 0
      let outlier_ratio : ℚ := if 0 < total then 1 - (max_bucket : ℚ) / total else 0
      let penalty := min (1/20 + outlier_ratio * (1/10)) (3/20)
      some (⟨.warning, .spacingInconsistent⟩, penalty)

/-- `quality.rs` line 211 / 242: span and tolerance (both
    `(viewport.width as f32 * 0.01).clamp(...)` with different caps). -/
def alignMinSpan (vp : Viewport) : ℚ := clampQ ((vp.width : ℚ) * (1/100)) 4 20

/-- `quality.rs` line 242: the clustering tolerance. -/
def alignTolerance (vp : Viewport) : ℚ := clampQ ((vp.width : ℚ) * (1/100)) 4 24

/-- `f32::MAX`, the fold seed of the nearest-centre search
    (`quality.rs` line 263). -/
def f32Max : ℚ := 2 ^ 128 - 2 ^ 104

/-- One step of the single-pass clustering loop (`quality.rs` lines
    245-257). The Rust code appends at the vector's tail and mutates
    `last_mut`; the list here keeps the newest cluster at the head and is
    reversed at the end, which is the same sequence of clusters. -/
def addPos (tol : ℚ) (cs : List (ℚ × ℕ)) (x : ℚ) : List (ℚ × ℕ) :=
  match cs with
  | [] => [(x, 1)]
  | (center, count) :: rest =>
    if |x - center| ≤ tol then
      ((center * (count : ℚ) + x) / ((count : ℚ) + 1), count + 1) :: rest
    else
      (x, 1) :: (center, count) :: rest

/-- The full clustering pass over the sorted positions. -/
def buildClusters (tol : ℚ) (sortedPos : List ℚ) : List (ℚ × ℕ) :=
  (sortedPos.foldl (addPos tol) []).reverse

/-- Cluster centres for a list of x-positions: sort ascending
    (`quality.rs` line 241), cluster, project the running means. -/
def alignCenters (tol : ℚ) (positions : List ℚ) : List ℚ :=
  (buildClusters tol (List.insertionSort (· ≤ ·) positions)).map Prod.fst

/-- `quality.rs` lines 262-270: distance to the nearest cluster centre,
    folded from `f32::MAX`. -/
def nearestDist (x : ℚ) (centers : List ℚ) : ℚ :=
  centers.foldl (fun acc c => min (|x - c|) acc) f32Max

/-- The positions classified as outliers (`quality.rs` lines 271-275:
    nearest distance above `tolerance * 1.5`). -/
def alignOutliers (tol : ℚ) (positions : List ℚ) : List ℚ :=
  (List.insertionSort (· ≤ ·) positions).filter
    (fun x => ¬(nearestDist x (alignCenters tol positions) ≤ tol * (3/2)))

/-- `quality.rs` lines 207-306, `alignment_heuristic`: optional alignment
    score plus the (message-less) finding. -/
def alignment_heuristic (view : NormalizedView) (vp : Viewport) :
    Option ℚ × QualityFinding :=
  let min_span := alignMinSpan vp
  let positions : List ℚ :=
    match view.dom with
    | some dom =>
      (dom.nodes.filter (fun n => min_span ≤ n.bounding_box.width)).map
        (fun n => n.bounding_box.x)
    | none =>
      match view.figma_tree with
      | some figma =>
        (figma.nodes.filter (fun n => min_span ≤ n.bounding_box.width)).map
          (fun n => n.bounding_box.x)
      | none => []
  if positions.length < 3 then
    (none, ⟨.info, .alignmentInconsistent⟩)
  else
    let tolerance := alignTolerance vp
    let centers := alignCenters tolerance positions
    let sortedPos := List.insertionSort (· ≤ ·) positions
    let aligned := (sortedPos.filter
      (fun x => nearestDist x centers ≤ tolerance * (3/2))).length
    let outliers := (sortedPos.filter
      (fun x => ¬(nearestDist x centers ≤ tolerance * (3/2)))).length
    let total : ℚ := positions.length
    let alignment_score : ℚ := if 0 < total then (aligned : ℚ) / total else 1
    let severity := if alignment_score < 3/4 ∧ 2 ≤ outliers then
        FindingSeverity.warning
      else FindingSeverity.info
    (some alignment_score, ⟨severity, .alignmentInconsistent⟩)

/-- The DOM branch of `score_quality` (`quality.rs` lines 126-152): its
    total score adjustment relative to the 0.4 baseline. -/
def dom_structure_score (dom : DomSnapshot) : ℚ :=
  let total_nodes : ℚ := (max dom.nodes.length 1 : ℕ)
  let text_nodes := (dom.nodes.filter node_has_text).length
  let t : ℚ := if text_nodes = 0 then -(1/10)
    else min (((text_nodes : ℚ) / total_nodes) * (25/100)) (25/100)
  let heading_nodes := (dom.nodes.filter is_heading).length
  let h : ℚ := if heading_nodes = 0 then -(1/20) else 1/20
  15/100 + t + h

/-- The findings the DOM branch pushes, in push order. -/
def dom_structure_findings (dom : DomSnapshot) : List QualityFinding :=
  (if (dom.nodes.filter node_has_text).length = 0 then
    [⟨.warning, .missingHierarchy⟩] else [])
  ++ (if (dom.nodes.filter is_heading).length = 0 then
    [⟨.warning, .missingHierarchy⟩] else [])

/-- The Figma branch of `score_quality` (`quality.rs` lines 153-166). -/
def figma_structure_score (figma : FigmaSnapshot) : ℚ :=
  let total_nodes : ℚ := (max figma.nodes.length 1 : ℕ)
  let text_nodes := (figma.nodes.filter figma_has_text).length
  let t : ℚ := if text_nodes = 0 then -(1/20)
    else min (((text_nodes : ℚ) / total_nodes) * (20/100)) (20/100)
  15/100 + t

/-- The findings the Figma branch pushes. -/
def figma_structure_findings (figma : FigmaSnapshot) : List QualityFinding :=
  if (figma.nodes.filter figma_has_text).length = 0 then
    [⟨.warning, .missingHierarchy⟩] else []

/-- The pre-spacing part of the quality score (`quality.rs` lines 122-188:
    0.4 baseline, structural branch, OCR bonus, alignment contribution). -/
def preSpacingScore (view : NormalizedView) (vp : Viewport) : ℚ :=
  let structural : ℚ :=
    match view.dom with
    | some dom => dom_structure_score dom
    | none =>
      match view.figma_tree with
      | some figma => figma_structure_score figma
      | none => -(1/10)
  let ocr : ℚ :=
    match view.ocr_blocks with
    | some blocks => if blocks.isEmpty then 0 else 3/100
    | none => 0
  let align : ℚ :=
    match (alignment_heuristic view vp).1 with
    | some s => s * (15/100)
    | none => 0
  2/5 + structural + ocr + align

/-- The findings pushed before the spacing stage, in push order. -/
def preSpacingFindings (view : NormalizedView) (vp : Viewport) :
    List QualityFinding :=
  (match view.dom with
   | some dom => dom_structure_findings dom
   | none =>
     match view.figma_tree with
     | some figma => figma_structure_findings figma
     | none => [⟨.warning, .missingHierarchy⟩])
  ++ [(alignment_heuristic view vp).2]

/-- `quality.rs` lines 197-202: the contrast placeholder finding. -/
def contrastFinding : QualityFinding := ⟨.info, .lowContrast⟩

/-- `quality.rs` lines 121-205, `score_quality`: the additive score (the
    accumulation order of the Rust code regroups under ℚ associativity and
    commutativity) with final clamp to `[0,1]`, plus the findings list. -/
def score_quality (view : NormalizedView) (vp : Viewport) :
    ℚ × List QualityFinding :=
  let gaps := collect_vertical_gaps view
  let base := preSpacingScore view vp
  let fs := preSpacingFindings view vp
  match evaluate_spacing gaps with
  | some fp =>
    (clampQ (base - fp.2) 0 1, fs ++ [fp.1, contrastFinding])
  | none =>
    (clampQ (base + if 2 ≤ gaps.length then 1/50 else 0) 0 1,
     fs ++ [contrastFinding])

/-- Spec-side definition, from the claim's words for C5: the quality result
    with the spacing heuristic contributing nothing at all — no penalty, no
    bonus, no finding. -/
def score_quality_nospacing (view : NormalizedView) (vp : Viewport) :
    ℚ × List QualityFinding :=
  (clampQ (preSpacingScore view vp) 0 1,
   preSpacingFindings view vp ++ [contrastFinding])

/-! ## Claim C5: spacing stage with fewer than 5 gaps -/

lemma alignment_heuristic_finding_type (view : NormalizedView) (vp : Viewport) :
    ((alignment_heuristic view vp).2).finding_type
      = QualityFindingType.alignmentInconsistent := by
  rw [alignment_heuristic]
  split <;> rfl

lemma preSpacingFindings_not_spacing (view : NormalizedView) (vp : Viewport) :
    ∀ f ∈ preSpacingFindings view vp,
      f.finding_type ≠ QualityFindingType.spacingInconsistent := by
  intro f hf
  rw [preSpacingFindings] at hf
  rcases List.mem_append.mp hf with hstruct | halign
  · have htype : f.finding_type = QualityFindingType.missingHierarchy := by
      cases hdom : view.dom with
      | some dom =>
        rw [hdom] at hstruct
        simp only [dom_structure_findings] at hstruct
        rcases List.mem_append.mp hstruct with h | h <;>
          (revert h; split <;> simp_all)
      | none =>
        rw [hdom] at hstruct
        cases hfig : view.figma_tree with
        | some figma =>
          rw [hfig] at hstruct
          simp only [figma_structure_findings] at hstruct
          revert hstruct
          split <;> simp_all
        | none =>
          rw [hfig] at hstruct
          simp at hstruct
          rw [hstruct]
    rw [htype]
    simp
  · simp at halign
    rw [halign, alignment_heuristic_finding_type]
    simp

/-- The counterexample view for C5: four untitled `div` nodes stacked with
    three equal positive vertical gaps of 0.05 (the shape of the
    `does_not_flag_spacing_with_consistent_gaps` test in quality.rs). -/
def cexSpacingView : NormalizedView :=
  { kind := .image
    screenshot_path := "dummy.png"
    width := 100
    height := 100
    dom := some
      { url := none, title := none
        nodes :=
          [⟨"n0", "div", none, ⟨0, 0, 1/5, 1/10⟩⟩,
           ⟨"n1", "div", none, ⟨1/20, 3/20, 1/5, 1/10⟩⟩,
           ⟨"n2", "div", none, ⟨1/10, 3/10, 1/5, 1/10⟩⟩,
           ⟨"n3", "div", none, ⟨1/10, 9/20, 1/5, 1/10⟩⟩] }
    figma_tree := none
    ocr_blocks := none }

lemma cexSpacingView_gaps :
    collect_vertical_gaps cexSpacingView = [1/20, 1/20, 1/20] := by
  norm_num [collect_vertical_gaps, cexSpacingView, List.insertionSort,
    List.orderedInsert, boxYXLe, List.filterMap_cons]

lemma cexSpacingView_preScore :
    preSpacingScore cexSpacingView ⟨800, 600⟩ = 2/5 := by
  norm_num [preSpacingScore, cexSpacingView, dom_structure_score,
    node_has_text, is_heading, asciiLowercase, strTrim, alignment_heuristic,
    alignMinSpan, clampQ]
  split
  · norm_num
  · next h => exact absurd (by decide) h

/-- Counterexample for C5: this view yields 3 positive vertical gaps
    (fewer than 5), yet the spacing stage adds the +0.02 coherence bonus
    (`quality.rs` lines 193-196), so the quality result differs from the
    claimed no-contribution result (score 0.42 versus 0.40). -/
theorem spacing_no_contribution_counterexample :
    (collect_vertical_gaps cexSpacingView).length = 3
    ∧ (score_quality cexSpacingView ⟨800, 600⟩).1 = 21/50
    ∧ (score_quality_nospacing cexSpacingView ⟨800, 600⟩).1 = 2/5
    ∧ score_quality cexSpacingView ⟨800, 600⟩
        ≠ score_quality_nospacing cexSpacingView ⟨800, 600⟩ := by
  have hlen : (collect_vertical_gaps cexSpacingView).length = 3 := by
    rw [cexSpacingView_gaps]
    rfl
  have hnone : evaluate_spacing (collect_vertical_gaps cexSpacingView) = none := by
    rw [evaluate_spacing, if_pos (by rw [hlen]; norm_num)]
  have h1 : (score_quality cexSpacingView ⟨800, 600⟩).1 = 21/50 := by
    rw [score_quality]
    simp only [hnone, hlen, cexSpacingView_preScore]
    norm_num [clampQ]
  have h2 : (score_quality_nospacing cexSpacingView ⟨800, 600⟩).1 = 2/5 := by
    rw [score_quality_nospacing]
    simp only [cexSpacingView_preScore]
    norm_num [clampQ]
  refine ⟨hlen, h1, h2, fun h => ?_⟩
  rw [h, h2] at h1
  norm_num at h1

/-- C5 (amended): with fewer than 5 positive vertical gaps the spacing
    heuristic applies no penalty and emits no `SpacingInconsistent` finding,
    but when the gap count is ≥ 2 it adds a +0.02 coherence bonus; only with
    fewer than 2 gaps does it contribute nothing at all. -/
theorem spacing_few_gaps_rule (view : NormalizedView) (vp : Viewport)
    (h : (collect_vertical_gaps view).length < 5) :
    evaluate_spacing (collect_vertical_gaps view) = none
    ∧ (∀ f ∈ (score_quality view vp).2,
        f.finding_type ≠ QualityFindingType.spacingInconsistent)
    ∧ (score_quality view vp).1
        = clampQ (preSpacingScore view vp
            + if 2 ≤ (collect_vertical_gaps view).length then 1/50 else 0) 0 1
    ∧ ((collect_vertical_gaps view).length < 2 →
        score_quality view vp = score_quality_nospacing view vp) := by
  have hnone : evaluate_spacing (collect_vertical_gaps view) = none := by
    rw [evaluate_spacing, if_pos h]
  refine ⟨hnone, ?_, ?_, ?_⟩
  · intro f hf
    rw [score_quality] at hf
    simp only [hnone] at hf
    rcases List.mem_append.mp hf with hf | hf
    · exact preSpacingFindings_not_spacing view vp f hf
    · simp at hf
      rw [hf]
      simp [contrastFinding]
  · rw [score_quality]
    simp only [hnone]
  · intro h2
    rw [score_quality, score_quality_nospacing]
    simp only [hnone]
    rw [if_neg (by omega)]
    norm_num

/-- Witness for the amended C5 at the concrete four-node view (3 gaps). -/
theorem spacing_few_gaps_rule_witness :
    (collect_vertical_gaps cexSpacingView).length < 5
    ∧ evaluate_spacing (collect_vertical_gaps cexSpacingView) = none
    ∧ (∀ f ∈ (score_quality cexSpacingView ⟨800, 600⟩).2,
        f.finding_type ≠ QualityFindingType.spacingInconsistent) := by
  have hlt : (collect_vertical_gaps cexSpacingView).length < 5 := by
    rw [cexSpacingView_gaps]
    norm_num
  have h := spacing_few_gaps_rule cexSpacingView ⟨800, 600⟩ hlt
  exact ⟨hlt, h.1, h.2.1⟩

/-! ## Claim C7: alignment clustering invariants -/

/-- The descending-with-gap relation kept along the (newest-first) cluster
    list. -/
def clusterChainRel (tol : ℚ) : (ℚ × ℕ) → (ℚ × ℕ) → Prop :=
  fun a b => b.1 + tol < a.1

lemma alignTolerance_pos (vp : Viewport) : 0 < alignTolerance vp := by
  unfold alignTolerance clampQ
  calc (0:ℚ) < min 4 24 := by norm_num
    _ ≤ min (max ((vp.width : ℚ) * (1/100)) 4) 24 :=
      min_le_min (le_max_right _ _) le_rfl

lemma addPos_chain (tol : ℚ) (x : ℚ) (cs : List (ℚ × ℕ))
    (hchain : cs.Chain' (clusterChainRel tol))
    (hhead : ∀ c ∈ cs.head?, c.1 ≤ x) :
    (addPos tol cs x).Chain' (clusterChainRel tol)
    ∧ ∀ c ∈ (addPos tol cs x).head?, c.1 ≤ x := by
  cases cs with
  | nil =>
    constructor
    · simp [addPos]
    · simp [addPos]
  | cons hd rest =>
    obtain ⟨center, count⟩ := hd
    have hcx : center ≤ x := hhead (center, count) (by simp)
    rw [addPos]
    by_cases hmerge : |x - center| ≤ tol
    · rw [if_pos hmerge]
      have hcnt : (0:ℚ) < (count : ℚ) + 1 := by positivity
      have h1 : center ≤ (center * (count : ℚ) + x) / ((count : ℚ) + 1) := by
        rw [le_div_iff₀ hcnt]
        nlinarith
      have h2 : (center * (count : ℚ) + x) / ((count : ℚ) + 1) ≤ x := by
        rw [div_le_iff₀ hcnt]
        nlinarith
      constructor
      · rcases rest with _ | ⟨⟨c1, k1⟩, rest'⟩
        · simp
        · rw [List.chain'_cons] at hchain ⊢
          exact ⟨lt_of_lt_of_le hchain.1 h1, hchain.2⟩
      · intro c hc
        simp at hc
        rw [← hc]
        exact h2
    · rw [if_neg hmerge]
      have hgt : center + tol < x := by
        have habs : tol < |x - center| := not_le.mp hmerge
        rw [abs_of_nonneg (by linarith)] at habs
        linarith
      constructor
      · rw [List.chain'_cons]
        exact ⟨hgt, hchain⟩
      · intro c hc
        simp at hc
        rw [← hc]

lemma foldl_addPos_chain (tol : ℚ) (l : List ℚ) :
    ∀ (cs : List (ℚ × ℕ)), l.Sorted (· ≤ ·) →
    cs.Chain' (clusterChainRel tol) →
    (∀ c ∈ cs.head?, ∀ x ∈ l, c.1 ≤ x) →
    (l.foldl (addPos tol) cs).Chain' (clusterChainRel tol) := by
  induction l with
  | nil => intro cs _ hchain _; exact hchain
  | cons x xs ih =>
    intro cs hsort hchain hhead
    rw [List.foldl_cons]
    have hstep := addPos_chain tol x cs hchain
      (fun c hc => hhead c hc x (by simp))
    have hsort' := List.sorted_cons.mp hsort
    apply ih (addPos tol cs x) hsort'.2 hstep.1
    intro c hc y hy
    calc c.1 ≤ x := hstep.2 c hc
      _ ≤ y := hsort'.1 y hy

lemma alignCenters_sorted (tol : ℚ) (htol : 0 ≤ tol) (positions : List ℚ) :
    (alignCenters tol positions).Sorted (· < ·) := by
  unfold alignCenters buildClusters
  have hsorted : (List.insertionSort (· ≤ ·) positions).Sorted (· ≤ ·) :=
    List.sorted_insertionSort _ _
  have hchain : ((List.insertionSort (· ≤ ·) positions).foldl
      (addPos tol) []).Chain' (clusterChainRel tol) :=
    foldl_addPos_chain tol _ [] hsorted (by simp) (by simp)
  have hmap : ((((List.insertionSort (· ≤ ·) positions).foldl
      (addPos tol) []).reverse).map Prod.fst).Chain'
      (fun a b => a + tol < b) := by
    rw [List.chain'_map, List.chain'_reverse]
    exact hchain
  have hlt := hmap.imp (fun a b hab => by linarith : ∀ a b : ℚ,
    a + tol < b → a < b)
  exact List.chain'_iff_pairwise.mp hlt

/-- Counterexample for C7: the running mean drifts. With viewport width 800
    (tolerance 8) and positions `[0, 8, 12, 44/3]`, a single cluster with
    centre 26/3 ≈ 8.67 forms; position 0 has nearest-centre distance
    26/3 > 8 = tolerance, yet it is classified aligned (26/3 ≤ 1.5·8), so
    the outlier list is empty: the claimed disjunction fails at 0. -/
theorem alignment_tolerance_counterexample :
    alignTolerance ⟨800, 600⟩ = 8
    ∧ 3 ≤ ([0, 8, 12, 44/3] : List ℚ).length
    ∧ (0 : ℚ) ∈ ([0, 8, 12, 44/3] : List ℚ)
    ∧ alignCenters 8 [0, 8, 12, 44/3] = [26/3]
    ∧ ¬(nearestDist 0 (alignCenters 8 [0, 8, 12, 44/3]) ≤ 8)
    ∧ alignOutliers 8 [0, 8, 12, 44/3] = [] := by
  have htol : alignTolerance ⟨800, 600⟩ = 8 := by
    norm_num [alignTolerance, clampQ]
  have hcenters : alignCenters 8 [0, 8, 12, 44/3] = [26/3] := by
    norm_num [alignCenters, buildClusters, addPos, List.insertionSort,
      List.orderedInsert]
  refine ⟨htol, by norm_num, by norm_num, hcenters, ?_, ?_⟩
  · rw [hcenters]
    norm_num [nearestDist, f32Max, abs_of_nonneg, abs_of_nonpos]
  · rw [alignOutliers, hcenters]
    norm_num [nearestDist, f32Max, List.insertionSort, List.orderedInsert,
      List.filter_cons, abs_of_nonneg, abs_of_nonpos]

/-- C7 (amended): for any position list (the heuristic needs at least 3
    samples), the cluster centres are sorted strictly ascending, and every
    input position either has a nearest centre within `1.5 · tolerance` (the
    classification threshold the code actually uses — drift of the running
    mean can push the nearest distance beyond `tolerance` itself) or appears
    in the outlier list. -/
theorem alignment_clusters_property (vp : Viewport) (positions : List ℚ)
    (_h3 : 3 ≤ positions.length) :
    (alignCenters (alignTolerance vp) positions).Sorted (· < ·)
    ∧ ∀ x ∈ positions,
        nearestDist x (alignCenters (alignTolerance vp) positions)
            ≤ alignTolerance vp * (3/2)
          ∨ x ∈ alignOutliers (alignTolerance vp) positions := by
  refine ⟨alignCenters_sorted _ (alignTolerance_pos vp).le _, ?_⟩
  intro x hx
  by_cases hnear : nearestDist x (alignCenters (alignTolerance vp) positions)
      ≤ alignTolerance vp * (3/2)
  · exact Or.inl hnear
  · refine Or.inr ?_
    rw [alignOutliers, List.mem_filter]
    constructor
    · exact ((List.perm_insertionSort (· ≤ ·) positions).mem_iff).mpr hx
    · simpa using hnear

/-- Witness for the amended C7 at concrete positions `[0, 100, 200]` and
    viewport width 800. -/
theorem alignment_clusters_property_witness :
    3 ≤ ([0, 100, 200] : List ℚ).length
    ∧ (alignCenters (alignTolerance ⟨800, 600⟩) [0, 100, 200]).Sorted (· < ·) :=
  ⟨by norm_num,
   (alignment_clusters_property ⟨800, 600⟩ [0, 100, 200] (by norm_num)).1⟩

end DPC
